import Mathlib

/-!
Shallow embedding of src/Bayesian Linear Regression/bayesian_regression.py
(class BayesianRegression).

Numeric values are modelled as rationals.  The external numeric primitives the
code consumes as black boxes (numpy log, the constant pi, the float constant
NINF used only to seed the log-evidence trace, and scipy pinvh) are passed in
as a parameter record `NumPrims`; the economy SVD used at construction is
likewise passed as a function argument to `init`.  Exceptions are modelled with
`Except`; since the Python object is mutated in place, the error value carries
the object state visible to the caller after the raise.  Warning emission is
modelled as a list of emitted messages returned alongside the state.
-/

open Matrix

/-- External numeric primitives consumed as black boxes by the source:
numpy elementwise log, numpy pi, the float constant numpy NINF (only ever
stored as the seed of the log-evidence trace, never read by the stopping
rule, which is guarded by i >= 1), and scipy pinvh. -/
structure NumPrims where
  rlog : ℚ → ℚ
  pi : ℚ
  ninf : ℚ
  pinvh : (mm : ℕ) → Matrix (Fin mm) (Fin mm) ℚ → Matrix (Fin mm) (Fin mm) ℚ

/-- The per-instance data read (but never written) by the evidence loop:
centered design matrix X, centered response Y, the cached economy SVD
factors u, d, v (v holds the rows-are-right-singular-vectors factor, as
returned by numpy svd), and the configuration scalars. -/
structure EvCtx (n m k : ℕ) where
  X : Matrix (Fin n) (Fin m) ℚ
  Y : Fin n → ℚ
  u : Matrix (Fin n) (Fin k) ℚ
  d : Fin k → ℚ
  v : Matrix (Fin k) (Fin m) ℚ
  lambda_0 : ℚ
  thresh : ℚ

/-- The loop-carried state written back by _evidence_approx on normal
completion: final alpha and beta, the log-evidence trace, the perfect-fit
flag, and the warnings emitted during the loop. -/
structure EvOut where
  alpha : ℚ
  beta : ℚ
  logLike : List ℚ
  perfect_fit : Bool
  warnings : List String
  deriving DecidableEq

/-- The object-visible state carried by a raised exception: message, the
log-evidence trace and perfect-fit flag at raise time (list appends and flag
writes on self persist across the raise), and the warnings emitted so far.
The loop-local alpha and beta are lost on a raise, so they do not appear. -/
structure EvErr where
  msg : String
  logLike : List ℚ
  perfect_fit : Bool
  warnings : List String
  deriving DecidableEq

/-- Instance state of class BayesianRegression.  Fields keep the source
attribute names.  Attributes that are None until fit runs are `Option`.
The source misspells the attribute set in the constructor (w_precison)
and sets w_precision in fit; we model the single fit-time attribute. -/
structure BRState (n m k : ℕ) where
  mu_X : Fin m → ℚ
  X : Matrix (Fin n) (Fin m) ℚ
  mu_Y : ℚ
  Y : Fin n → ℚ
  thresh : ℚ
  bias_term : Option ℚ
  u : Matrix (Fin n) (Fin k) ℚ
  d : Fin k → ℚ
  v : Matrix (Fin k) (Fin m) ℚ
  alpha : ℚ
  beta : ℚ
  lambda_0 : ℚ
  w_mu : Option (Fin m → ℚ)
  w_precision : Option (Matrix (Fin m) (Fin m) ℚ)
  D : Option (Matrix (Fin m) (Fin m) ℚ)
  diag : Option (Fin k → ℚ)
  logLike : List ℚ
  perfect_fit : Bool

namespace BayesianRegression

/-- Text of the warning emitted by the perfect-fit guard (source lines
179-185; the spelling of the source message is kept). -/
def perfectFitWarning : String :=
  "Almost perfect fit!!! Estimated values of variance for predictive distribution are computed using only Residual Sum of Squares, terefore they do not increase in case of extrapolation"

/-- Text of the ValueError raised on an unrecognized method (source line 199;
the quotes around the method names in the original message are elided). -/
def invalidMethodMsg : String :=
  "Only EM and fixed-point algorithms are implemented "

/-- The SVD-based closed-form posterior mean
v.T . diag(d/(d^2 + alpha/beta)) . u.T . Y, shared verbatim by the evidence
loop (source lines 169-171) and by _posterior_params (source lines 247-249). -/
def svdPosteriorMean (u : Matrix (Fin n) (Fin k) ℚ) (d : Fin k → ℚ)
    (v : Matrix (Fin k) (Fin m) ℚ) (Y : Fin n → ℚ) (alpha beta : ℚ) :
    Fin m → ℚ :=
  (v.transpose * Matrix.diagonal (fun j => d j / (d j ^ 2 + alpha / beta))).mulVec
    (u.transpose.mulVec Y)

/-- mu of one evidence-loop iteration (source lines 169-171). -/
def muOf (c : EvCtx n m k) (alpha beta : ℚ) : Fin m → ℚ :=
  svdPosteriorMean c.u c.d c.v c.Y alpha beta

/-- error = Y - X.mu of one evidence-loop iteration (source line 174). -/
def errVecOf (c : EvCtx n m k) (alpha beta : ℚ) : Fin n → ℚ :=
  fun i0 => c.Y i0 - c.X.mulVec (muOf c alpha beta) i0

/-- sqdErr = error.error of one evidence-loop iteration (source line 175). -/
def sqdErrOf (c : EvCtx n m k) (alpha beta : ℚ) : ℚ :=
  dotProduct (errVecOf c alpha beta) (errVecOf c alpha beta)

/-- gamma of the fixed-point update (source line 189). -/
def gammaOf (c : EvCtx n m k) (alpha beta : ℚ) : ℚ :=
  ∑ j, c.d j ^ 2 / (c.d j ^ 2 + alpha / beta)

/-- The hyperparameter update (source lines 187-197): fixed-point or EM from
the current alpha, beta, mu and sqdErr; none for an unrecognized method.  In
the EM branch the source reassigns alpha before computing beta, so the beta
update reads the new alpha. -/
def updateOf (c : EvCtx n m k) (method : String) (alpha beta : ℚ)
    (mu : Fin m → ℚ) (sqdErr : ℚ) : Option (ℚ × ℚ) :=
  let dsq := fun j => c.d j ^ 2
  if method = "fixed-point" then
    let gamma := ∑ j, dsq j / (dsq j + alpha / beta)
    some (gamma / dotProduct mu mu, ((n : ℚ) - gamma) / sqdErr)
  else if method = "EM" then
    let alphaN := (m : ℚ) / (dotProduct mu mu + ∑ j, 1 / (beta * dsq j + alpha))
    some (alphaN, (n : ℚ) / (sqdErr + ∑ j, dsq j / (beta * dsq j + alphaN)))
  else none

/-- Log-evidence of one iteration (source lines 203-204), computed from the
updated alpha and beta and the pre-update mu and sqdErr; the logarithm is the
external primitive. -/
def logLikeOf (P : NumPrims) (c : EvCtx n m k) (alphaN betaN : ℚ)
    (mu : Fin m → ℚ) (sqdErr : ℚ) : ℚ :=
  let dsq := fun j => c.d j ^ 2
  let normaliser := (1/2) * ((m : ℚ) * P.rlog alphaN + (n : ℚ) * P.rlog betaN
      - ∑ j, P.rlog (betaN * dsq j + alphaN))
  normaliser - (1/2) * alphaN * (∑ j, mu j ^ 2) - (1/2) * betaN * sqdErr
      - (1/2) * (n : ℚ) * P.rlog (2 * P.pi)

/-- logLike[-1] - logLike[-2] (source line 209); the stopping rule only reads
this under the i >= 1 guard, where the list has at least two entries, so the
defaults are never reached on any executed path. -/
def lastTwoDelta (l : List ℚ) : ℚ :=
  l.getLastD 0 - l.dropLast.getLastD 0

/-- One pass through the body of the evidence loop, with explicit iteration
index i and remaining-iterations fuel (source lines 166-210): compute mu and
sqdErr from the current alpha, beta; fire the perfect-fit guard; otherwise
update the hyperparameters (raising on an unrecognized method), append the
log-evidence, and apply the exact-equality stopping rule when i >= 1. -/
def evidence_iter (P : NumPrims) (c : EvCtx n m k) (method : String)
    (i : ℕ) (fuel : ℕ) (alpha beta : ℚ) (ll : List ℚ) (pf : Bool)
    (ws : List String) : Except EvErr EvOut :=
  match fuel with
  | 0 => .ok ⟨alpha, beta, ll, pf, ws⟩
  | fuel' + 1 =>
    let mu := muOf c alpha beta
    let sqdErr := sqdErrOf c alpha beta
    if sqdErr / (n : ℚ) < c.lambda_0 then
      .ok ⟨alpha, beta, ll, true, ws ++ [perfectFitWarning]⟩
    else
      match updateOf c method alpha beta mu sqdErr with
      | none => .error ⟨invalidMethodMsg, ll, pf, ws⟩
      | some (alphaN, betaN) =>
        let llN := ll ++ [logLikeOf P c alphaN betaN mu sqdErr]
        if 1 ≤ i ∧ lastTwoDelta llN = c.thresh then
          .ok ⟨alphaN, betaN, llN, pf, ws⟩
        else
          evidence_iter P c method (i + 1) fuel' alphaN betaN llN pf ws

/-- The read-only loop context of an instance. -/
def ctxOf (s : BRState n m k) : EvCtx n m k :=
  ⟨s.X, s.Y, s.u, s.d, s.v, s.lambda_0, s.thresh⟩

/-- _evidence_approx (source lines 144-216): run the loop from the stored
alpha and beta, write the results back on normal completion; on a raise the
write-back of alpha and beta is skipped, but trace appends and flag writes
made before the raise persist on the object. -/
def evidence_approx (P : NumPrims) (s : BRState n m k) (method : String)
    (max_iter : ℕ) :
    Except (String × BRState n m k × List String) (BRState n m k × List String) :=
  match evidence_iter P (ctxOf s) method 0 max_iter s.alpha s.beta
      s.logLike s.perfect_fit [] with
  | .ok o =>
      .ok ({ s with
              alpha := o.alpha, beta := o.beta, logLike := o.logLike,
              perfect_fit := o.perfect_fit }, o.warnings)
  | .error e =>
      .error (e.msg, { s with logLike := e.logLike, perfect_fit := e.perfect_fit },
        e.warnings)

/-- _posterior_params (source lines 218-249): the posterior precision
beta.X.T.X + alpha.I computed from the raw matrix product, the diag vector
d/(d^2 + alpha/beta) stored on self, and the posterior mean via the cached
SVD.  Returned as (w_mu, precision, diag). -/
def posterior_params (s : BRState n m k) (alpha beta : ℚ) :
    (Fin m → ℚ) × Matrix (Fin m) (Fin m) ℚ × (Fin k → ℚ) :=
  let precision := beta • (s.X.transpose * s.X)
      + alpha • (1 : Matrix (Fin m) (Fin m) ℚ)
  let diag := fun j => s.d j / (s.d j ^ 2 + alpha / beta)
  (svdPosteriorMean s.u s.d s.v s.Y alpha beta, precision, diag)

/-- fit (source lines 70-96): evidence approximation, then posterior mean and
precision from the final alpha and beta, then covariance D via the external
pinvh. -/
def fit (P : NumPrims) (s : BRState n m k) (evidence_approx_method : String)
    (max_iter : ℕ) :
    Except (String × BRState n m k × List String) (BRState n m k × List String) :=
  match evidence_approx P s evidence_approx_method max_iter with
  | .error e => .error e
  | .ok (s1, ws) =>
      let pp := posterior_params s1 s1.alpha s1.beta
      .ok ({ s1 with
              w_mu := some pp.1, w_precision := some pp.2.1,
              diag := some pp.2.2, D := some (P.pinvh m pp.2.1) }, ws)

/-- numpy broadcasting semantics of np.sum((Y - Y_hat)**2) for a length-n Y
against a length-q Y_hat: elementwise when n = q, stretch when either side
has length 1, error (none) otherwise. -/
def broadcastSq (Y : Fin n → ℚ) (Yh : Fin q → ℚ) : Option ℚ :=
  if h : n = q then
    some (∑ i0 : Fin q, (Y (Fin.cast h.symm i0) - Yh i0) ^ 2)
  else if h1 : n = 1 then
    some (∑ i0 : Fin q, (Y ⟨0, by omega⟩ - Yh i0) ^ 2)
  else if h2 : q = 1 then
    some (∑ i0 : Fin n, (Y i0 - Yh ⟨0, by omega⟩) ^ 2)
  else none

/-- predict_dist (source lines 99-121): center the query, point estimate
x.w_mu + mu_Y; the variance is 1/beta + rowwise x.D.x.T in the normal case,
and ones(q) * np.sum((self.Y - Y_hat)**2) / n in the perfect-fit case, where
Y_hat are the QUERY point estimates (before adding mu_Y) and self.Y is the
centered TRAINING response, combined under numpy broadcasting.  none models
the TypeError on unfitted attributes or the broadcasting ValueError. -/
def predict_dist (s : BRState n m k) (x : Matrix (Fin q) (Fin m) ℚ) :
    Option ((Fin q → ℚ) × (Fin q → ℚ)) :=
  match s.w_mu with
  | none => none
  | some wmu =>
    let xc : Matrix (Fin q) (Fin m) ℚ := fun i0 j => x i0 j - s.mu_X j
    let Y_hat := xc.mulVec wmu
    let y_hat := fun i0 => Y_hat i0 + s.mu_Y
    if s.perfect_fit = false then
      match s.D with
      | none => none
      | some Dm =>
          some (y_hat,
            fun i0 => 1 / s.beta + ∑ j, (∑ l, xc i0 l * Dm l j) * xc i0 j)
    else
      match broadcastSq s.Y Y_hat with
      | none => none
      | some ssq => some (y_hat, fun _ => ssq / (n : ℚ))

/-- predict (source lines 124-141): center the query and return
x.w_mu + mu_Y. -/
def predict (s : BRState n m k) (x : Matrix (Fin q) (Fin m) ℚ) :
    Option (Fin q → ℚ) :=
  match s.w_mu with
  | none => none
  | some wmu =>
      some (fun i0 => dotProduct (fun j => x i0 j - s.mu_X j) wmu + s.mu_Y)

/-- The constructor (source lines 41-68): center X featurewise and Y by its
mean, set bias_term to the response mean only when the flag is true (when the
flag is false the attribute is never created, modelled as none), obtain the
economy SVD of the centered X from the external factorization, store the
initial alpha, beta, lambda_0, and seed the log-evidence trace with the
external NINF constant. -/
def init (Xraw : Matrix (Fin n) (Fin m) ℚ) (Yraw : Fin n → ℚ)
    (bias_term : Bool) (thresh lambda_0 alpha beta : ℚ) (P : NumPrims)
    (svd : Matrix (Fin n) (Fin m) ℚ →
      Matrix (Fin n) (Fin k) ℚ × (Fin k → ℚ) × Matrix (Fin k) (Fin m) ℚ) :
    BRState n m k :=
  let mu_X := fun j => (∑ i0, Xraw i0 j) / (n : ℚ)
  let Xc : Matrix (Fin n) (Fin m) ℚ := fun i0 j => Xraw i0 j - mu_X j
  let mu_Y := (∑ i0, Yraw i0) / (n : ℚ)
  let usv := svd Xc
  { mu_X := mu_X, X := Xc, mu_Y := mu_Y, Y := fun i0 => Yraw i0 - mu_Y,
    thresh := thresh,
    bias_term := if bias_term then some mu_Y else none,
    u := usv.1, d := usv.2.1, v := usv.2.2,
    alpha := alpha, beta := beta, lambda_0 := lambda_0,
    w_mu := none, w_precision := none, D := none, diag := none,
    logLike := [P.ninf], perfect_fit := false }

/-! ### Concrete fixtures used by witnesses and counterexamples -/

/-- Trivial instantiation of the external numeric primitives: the logarithm
is the constant-zero function, pi and NINF are 0, pinvh is the identity.
The claims settled on concrete fixtures do not depend on these values. -/
def P0 : NumPrims := ⟨fun _ => 0, 0, 0, fun _ M0 => M0⟩

/-- A fitted-looking instance state in the perfect-fit regime: two centered
training rows X = (1; -1), centered training response Y = (1, -1), posterior
mean weight 1 (so the training residual is exactly zero), centering offsets
zero. -/
def C1state : BRState 2 1 1 :=
  { mu_X := fun _ => 0, X := !![1; -1], mu_Y := 0, Y := ![1, -1],
    thresh := 1/1000, bias_term := some 0,
    u := fun _ _ => 1, d := fun _ => 1, v := fun _ _ => 1,
    alpha := 1, beta := 1, lambda_0 := 1/100000000,
    w_mu := some (fun _ => 1), w_precision := some 1, D := some 1,
    diag := some (fun _ => 1), logLike := [0], perfect_fit := true }

/-- Query with both rows at feature value 5. -/
def C1q1 : Matrix (Fin 2) (Fin 1) ℚ := !![5; 5]

/-- Query with both rows at feature value 2. -/
def C1q2 : Matrix (Fin 2) (Fin 1) ℚ := !![2; 2]

/-- Query with three rows (row count differing from the training set). -/
def C1q3 : Matrix (Fin 3) (Fin 1) ℚ := !![5; 5; 5]

/-- Stand-in SVD factorization used where the factors are irrelevant. -/
def svd0 : Matrix (Fin 2) (Fin 1) ℚ →
    Matrix (Fin 2) (Fin 1) ℚ × (Fin 1 → ℚ) × Matrix (Fin 1) (Fin 1) ℚ :=
  fun _ => (fun _ _ => 0, fun _ => 0, fun _ _ => 0)

/-- Instance constructed with the bias-term flag DISABLED on raw data with
response mean 1 (raw X rows 0 and 2, raw Y values 0 and 2). -/
def C2s0 : BRState 2 1 1 :=
  init !![0; 2] ![0, 2] false (1/1000) (1/100000000) 1 1 P0 svd0

/-- The state after fitting C2s0 with a zero iteration budget (the fit
succeeds and populates the posterior fields). -/
def C2s2 : BRState 2 1 1 :=
  match fit P0 C2s0 "fixed-point" 0 with
  | .ok p => p.1
  | .error _ => C2s0

/-- Query at the training feature mean, so the centered query is zero and the
centered point estimate is zero. -/
def C2q : Matrix (Fin 1) (Fin 1) ℚ := !![1]

/-- A fitted-looking instance state in the NORMAL (not perfect-fit) regime
with one feature, one training row and unit covariance, used to witness the
prediction-invariance claim. -/
def C9s : BRState 1 1 1 :=
  { mu_X := fun _ => 0, X := !![0], mu_Y := 0, Y := ![0],
    thresh := 1/1000, bias_term := some 0,
    u := !![1], d := fun _ => 1, v := !![1],
    alpha := 1, beta := 1, lambda_0 := 1/100000000,
    w_mu := some (fun _ => 1), w_precision := some 1, D := some !![1],
    diag := some (fun _ => 1), logLike := [0], perfect_fit := false }

/-- Single-row query at feature value 3. -/
def C9x : Matrix (Fin 1) (Fin 1) ℚ := !![3]

/-- The distribution predict_dist returns on C9s at C9x: mean 3 and variance
1/beta + 3 * 1 * 3 = 10. -/
def C9p : (Fin 1 → ℚ) × (Fin 1 → ℚ) := (fun _ => 3, fun _ => 10)

/-- Casting a Fin along a reflexive length equality is the identity. -/
theorem fin_cast_self (h : n = n) (i : Fin n) : Fin.cast h i = i := rfl

/-! ### Claims -/

/-- C9: for every query matrix of the training feature width and every model
state, whenever predict_dist returns, predict returns exactly its mean
component. -/
theorem predict_eq_predict_dist_mean {n m k q : ℕ} (s : BRState n m k)
    (x : Matrix (Fin q) (Fin m) ℚ) (p : (Fin q → ℚ) × (Fin q → ℚ))
    (h : predict_dist s x = some p) : predict s x = some p.1 := by
  unfold predict_dist at h
  unfold predict
  rcases hw : s.w_mu with _ | wmu
  · rw [hw] at h; cases h
  · rw [hw] at h
    simp only at h
    split at h
    · rcases hD : s.D with _ | Dm
      · rw [hD] at h; cases h
      · rw [hD] at h
        simp only [Option.some.injEq] at h
        subst h
        rfl
    · rcases hB : broadcastSq s.Y _ with _ | ssq
      · rw [hB] at h; cases h
      · rw [hB] at h
        simp only [Option.some.injEq] at h
        subst h
        rfl

/-- C9 witness: a concrete fitted state in the normal regime where both
prediction functions return, with identical mean component. -/
theorem predict_eq_predict_dist_mean_witness : predict C9s C9x = some C9p.1 :=
  predict_eq_predict_dist_mean C9s C9x C9p (by
    simp only [predict_dist, C9s, C9x, C9p, Option.some.injEq]
    norm_num [Matrix.mulVec, Matrix.dotProduct, Fin.sum_univ_one, funext_iff,
      Fin.forall_fin_one, Prod.ext_iff])

/-- C1 (code bug evaluation): in the perfect-fit regime the returned variance
is computed from the residual of the QUERY point estimates against the
centered TRAINING response, so it depends on the query rows; here the mean
squared training residual of the stored model is 0, yet the variance returned
for the all-5 query is 26 and for the all-2 query is 5, and a query whose row
count differs from the training row count (and is not 1) makes predict_dist
fail on broadcasting instead of returning the constant. -/
theorem predict_dist_perfect_fit_variance_bug :
    Option.map (fun p => (p.2 0, p.2 1)) (predict_dist C1state C1q1)
      = some (26, 26) ∧
    Option.map (fun p => p.2 0) (predict_dist C1state C1q2) = some 5 ∧
    C1state.w_mu = some (fun _ => 1) ∧
    (∑ i0, (C1state.Y i0 - C1state.X.mulVec (fun _ => 1) i0) ^ 2) / (2 : ℚ)
      = 0 ∧
    predict_dist C1state C1q3 = none := by
  refine ⟨?_, ?_, rfl, ?_, ?_⟩
  · simp only [predict_dist, broadcastSq, C1state, C1q1]
    norm_num [Matrix.mulVec, Matrix.dotProduct, Fin.sum_univ_two,
      Fin.sum_univ_one, fin_cast_self]
  · simp only [predict_dist, broadcastSq, C1state, C1q2]
    norm_num [Matrix.mulVec, Matrix.dotProduct, Fin.sum_univ_two,
      Fin.sum_univ_one, fin_cast_self]
  · norm_num [C1state, Matrix.mulVec, Matrix.dotProduct, Fin.sum_univ_two,
      Fin.sum_univ_one]
  · simp [predict_dist, broadcastSq, C1state, C1q3]

/-- C2 counterexample: with the bias-term flag disabled at construction
(bias_term attribute absent) and response mean 1, a query equal to the
training feature mean has centered point estimate 0, yet predict returns 1:
the response mean is added back even though the flag is disabled. -/
theorem bias_disabled_mean_still_added :
    C2s0.bias_term = none ∧ C2s2.bias_term = none ∧ C2s2.mu_Y = 1 ∧
    (fun j => C2q 0 j - C2s2.mu_X j) = (fun _ => (0 : ℚ)) ∧
    predict C2s2 C2q = some (fun _ => 1) := by
  refine ⟨rfl, ?_, ?_, ?_, ?_⟩
  · simp [C2s2, fit, evidence_approx, evidence_iter, posterior_params, C2s0,
      init, svd0, P0]
  · norm_num [C2s2, fit, evidence_approx, evidence_iter, posterior_params,
      C2s0, init, svd0, P0, Fin.sum_univ_two]
  · funext j
    norm_num [C2s2, C2q, fit, evidence_approx, evidence_iter,
      posterior_params, C2s0, init, svd0, P0, Fin.sum_univ_two]
  · simp only [predict, C2s2, C2q, fit, evidence_approx, evidence_iter,
      posterior_params, C2s0, init, svd0, P0, svdPosteriorMean]
    norm_num [Matrix.mulVec, Matrix.dotProduct, Fin.sum_univ_two,
      Fin.sum_univ_one, funext_iff, Fin.forall_fin_one]

/-- C2 amended: predict and the mean component of predict_dist always add the
response mean back to the centered point estimate, and their output is
independent of the bias_term attribute (the flag only controls whether that
attribute stores the response mean). -/
theorem bias_term_flag_has_no_effect_on_predictions {n m k q : ℕ}
    (s : BRState n m k) (x : Matrix (Fin q) (Fin m) ℚ) (t : Option ℚ)
    (wmu : Fin m → ℚ) (h : s.w_mu = some wmu) :
    predict { s with bias_term := t } x = predict s x ∧
    predict s x
      = some (fun i0 => dotProduct (fun j => x i0 j - s.mu_X j) wmu + s.mu_Y) ∧
    Option.map Prod.fst (predict_dist s x)
      = Option.map
          (fun _ => fun i0 => dotProduct (fun j => x i0 j - s.mu_X j) wmu + s.mu_Y)
          (predict_dist s x) := by
  refine ⟨rfl, ?_, ?_⟩
  · unfold predict
    rw [h]
  · unfold predict_dist
    rw [h]
    simp only
    split
    · rcases s.D with _ | Dm
      · rfl
      · rfl
    · rcases broadcastSq s.Y _ with _ | ssq
      · rfl
      · rfl

/-- C2 amended witness: the bias-flag-disabled fitted instance at a concrete
query. -/
theorem bias_term_flag_has_no_effect_on_predictions_witness :
    predict { C2s2 with bias_term := some 5 } C2q = predict C2s2 C2q ∧
    predict C2s2 C2q
      = some (fun i0 => dotProduct (fun j => C2q i0 j - C2s2.mu_X j) (fun _ => 0) + C2s2.mu_Y) ∧
    Option.map Prod.fst (predict_dist C2s2 C2q)
      = Option.map
          (fun _ => fun i0 => dotProduct (fun j => C2q i0 j - C2s2.mu_X j) (fun _ => 0) + C2s2.mu_Y)
          (predict_dist C2s2 C2q) :=
  bias_term_flag_has_no_effect_on_predictions C2s2 C2q (some 5) (fun _ => 0)
    (by
      simp only [C2s2, fit, evidence_approx, evidence_iter, posterior_params,
        C2s0, init, svd0, P0, svdPosteriorMean, Option.some.injEq]
      norm_num [Matrix.mulVec, Matrix.dotProduct, Fin.sum_univ_two,
        Fin.sum_univ_one, funext_iff, Fin.forall_fin_one])

/-- Variant of C9s whose residual floor lambda_0 is zero, so the perfect-fit
guard can never fire (sqdErr is a sum of squares, hence nonnegative). -/
def C3s : BRState 1 1 1 := { C9s with lambda_0 := 0 }

/-- Variant of C3s with response 2, giving mu = 1, sqdErr = 4, and a
fixed-point update to (1/2, 1/8); with the trivial primitives P0 the
appended log-evidence is -1/2, and thresh is set to the increment -1/2 so
the exact-equality stopping rule triggers at i = 1 after trace entry 0. -/
def C5s : BRState 1 1 1 := { C9s with Y := ![2], lambda_0 := 0, thresh := -(1/2) }

/-- The state produced by a successful zero-budget fit of C9s. -/
def C10s1 : BRState 1 1 1 :=
  match fit P0 C9s "fixed-point" 0 with
  | .ok p => p.1
  | .error _ => C9s

/-- C6: in every evidence-loop iteration (arbitrary loop-carried alpha, beta,
trace, flag, warnings and iteration index) in which sqdErr / n falls below
lambda_0, the loop returns immediately with the perfect-fit flag true, the
warning emitted, no hyperparameter update and no trace append, alpha and beta
exactly as they entered the iteration; consequently _evidence_approx on a
state whose first iteration fires the guard stores the pre-iteration alpha
and beta and only flips the flag. -/
theorem perfect_fit_guard_terminates {n m k : ℕ} (P : NumPrims)
    (c : EvCtx n m k) (method : String) (i fuel : ℕ) (alpha beta : ℚ)
    (ll : List ℚ) (pf : Bool) (ws : List String) (s : BRState n m k)
    (h1 : sqdErrOf c alpha beta / (n : ℚ) < c.lambda_0)
    (h2 : sqdErrOf (ctxOf s) s.alpha s.beta / (n : ℚ) < s.lambda_0) :
    evidence_iter P c method i (fuel + 1) alpha beta ll pf ws
      = .ok ⟨alpha, beta, ll, true, ws ++ [perfectFitWarning]⟩ ∧
    evidence_approx P s method (fuel + 1)
      = .ok ({ s with perfect_fit := true }, [perfectFitWarning]) := by
  constructor
  · rw [evidence_iter]
    simp only [h1, if_true, reduceIte]
  · have h2c : sqdErrOf (ctxOf s) s.alpha s.beta / (n : ℚ) < (ctxOf s).lambda_0 := h2
    unfold evidence_approx
    rw [evidence_iter]
    simp only [h2c, if_true, reduceIte, List.nil_append]

/-- C6 witness: the guard fires on a one-observation instance whose residual
is zero and whose floor is positive. -/
theorem perfect_fit_guard_terminates_witness :
    evidence_iter P0 (ctxOf C9s) "fixed-point" 0 (0 + 1) C9s.alpha C9s.beta
        C9s.logLike C9s.perfect_fit []
      = .ok ⟨C9s.alpha, C9s.beta, C9s.logLike, true, [] ++ [perfectFitWarning]⟩ ∧
    evidence_approx P0 C9s "fixed-point" (0 + 1)
      = .ok ({ C9s with perfect_fit := true }, [perfectFitWarning]) :=
  perfect_fit_guard_terminates P0 (ctxOf C9s) "fixed-point" 0 0 C9s.alpha
    C9s.beta C9s.logLike C9s.perfect_fit [] C9s
    (by norm_num [sqdErrOf, errVecOf, muOf, svdPosteriorMean, ctxOf, C9s,
      Matrix.mulVec, Matrix.dotProduct, Fin.sum_univ_one])
    (by norm_num [sqdErrOf, errVecOf, muOf, svdPosteriorMean, ctxOf, C9s,
      Matrix.mulVec, Matrix.dotProduct, Fin.sum_univ_one])

/-- C8: in every evidence-loop iteration with method fixed-point that passes
the perfect-fit guard, the iteration continues (or stops) with exactly
alphaN = gamma / (mu.mu) and betaN = (n - gamma) / sqdErr, where
gamma = sum dsq/(dsq + alpha/beta) and mu, sqdErr are computed from the
pre-update alpha and beta. -/
theorem fixed_point_update_formulas {n m k : ℕ} (P : NumPrims)
    (c : EvCtx n m k) (i fuel : ℕ) (alpha beta : ℚ) (ll : List ℚ) (pf : Bool)
    (ws : List String)
    (hguard : ¬ sqdErrOf c alpha beta / (n : ℚ) < c.lambda_0) :
    evidence_iter P c "fixed-point" i (fuel + 1) alpha beta ll pf ws
      = (let mu := muOf c alpha beta
         let sqdErr := sqdErrOf c alpha beta
         let alphaN := gammaOf c alpha beta / dotProduct mu mu
         let betaN := ((n : ℚ) - gammaOf c alpha beta) / sqdErr
         let llN := ll ++ [logLikeOf P c alphaN betaN mu sqdErr]
         if 1 ≤ i ∧ lastTwoDelta llN = c.thresh then
           .ok ⟨alphaN, betaN, llN, pf, ws⟩
         else
           evidence_iter P c "fixed-point" (i + 1) fuel alphaN betaN llN pf ws) := by
  rw [evidence_iter]
  simp only [hguard, if_false, reduceIte, updateOf, gammaOf, reduceCtorEq]

/-- C8 witness: one concrete iteration from alpha = beta = 1 on a
one-observation fixture with unit singular value; gamma = 1/2, the update
yields alphaN = betaN = 1/2 and the loop recurses. -/
theorem fixed_point_update_formulas_witness :
    evidence_iter P0 (ctxOf C3s) "fixed-point" 0 (0 + 1) 1 1 [] false []
      = (let mu := muOf (ctxOf C3s) 1 1
         let sqdErr := sqdErrOf (ctxOf C3s) 1 1
         let alphaN := gammaOf (ctxOf C3s) 1 1 / dotProduct mu mu
         let betaN := ((1 : ℚ) - gammaOf (ctxOf C3s) 1 1) / sqdErr
         let llN := [] ++ [logLikeOf P0 (ctxOf C3s) alphaN betaN mu sqdErr]
         if 1 ≤ 0 ∧ lastTwoDelta llN = (ctxOf C3s).thresh then
           .ok ⟨alphaN, betaN, llN, false, []⟩
         else
           evidence_iter P0 (ctxOf C3s) "fixed-point" (0 + 1) 0 alphaN betaN
             llN false []) :=
  fixed_point_update_formulas P0 (ctxOf C3s) 0 0 1 1 [] false []
    (by norm_num [sqdErrOf, errVecOf, muOf, svdPosteriorMean, ctxOf, C3s, C9s,
      Matrix.mulVec, Matrix.dotProduct, Fin.sum_univ_one])

/-- C5: after the perfect-fit guard passes and the hyperparameters update to
(alphaN, betaN), the loop stops at this iteration exactly when at least one
prior iteration exists (i >= 1) AND the increment between the last two trace
entries after the append equals thresh exactly; in particular when the
increment magnitude is merely below thresh the loop does not stop. -/
theorem stopping_rule_exact_equality {n m k : ℕ} (P : NumPrims)
    (c : EvCtx n m k) (method : String) (i fuel : ℕ)
    (alpha beta alphaN betaN : ℚ) (ll : List ℚ) (pf : Bool) (ws : List String)
    (hguard : ¬ sqdErrOf c alpha beta / (n : ℚ) < c.lambda_0)
    (hupd : updateOf c method alpha beta (muOf c alpha beta)
        (sqdErrOf c alpha beta) = some (alphaN, betaN)) :
    (1 ≤ i ∧ lastTwoDelta (ll ++ [logLikeOf P c alphaN betaN (muOf c alpha beta)
          (sqdErrOf c alpha beta)]) = c.thresh →
        evidence_iter P c method i (fuel + 1) alpha beta ll pf ws
          = .ok ⟨alphaN, betaN, ll ++ [logLikeOf P c alphaN betaN
              (muOf c alpha beta) (sqdErrOf c alpha beta)], pf, ws⟩) ∧
    (¬ (1 ≤ i ∧ lastTwoDelta (ll ++ [logLikeOf P c alphaN betaN
          (muOf c alpha beta) (sqdErrOf c alpha beta)]) = c.thresh) →
        evidence_iter P c method i (fuel + 1) alpha beta ll pf ws
          = evidence_iter P c method (i + 1) fuel alphaN betaN
              (ll ++ [logLikeOf P c alphaN betaN (muOf c alpha beta)
                (sqdErrOf c alpha beta)]) pf ws) ∧
    (|lastTwoDelta (ll ++ [logLikeOf P c alphaN betaN (muOf c alpha beta)
          (sqdErrOf c alpha beta)])| < c.thresh →
        evidence_iter P c method i (fuel + 1) alpha beta ll pf ws
          = evidence_iter P c method (i + 1) fuel alphaN betaN
              (ll ++ [logLikeOf P c alphaN betaN (muOf c alpha beta)
                (sqdErrOf c alpha beta)]) pf ws) := by
  have hbody : ∀ (cond : Prop) [Decidable cond], ∀ x y : Except EvErr EvOut,
      (if cond then x else y) = if cond then x else y := fun _ _ _ _ => rfl
  refine ⟨?_, ?_, ?_⟩ <;> intro hstop
  · rw [evidence_iter]
    simp only [hguard, if_false, reduceIte, hupd]
    rw [if_pos hstop]
  · rw [evidence_iter]
    simp only [hguard, if_false, reduceIte, hupd]
    rw [if_neg hstop]
  · rw [evidence_iter]
    simp only [hguard, if_false, reduceIte, hupd]
    rw [if_neg]
    rintro ⟨-, heq⟩
    rw [heq] at hstop
    exact absurd hstop (not_lt.mpr (le_abs_self _))

/-- C5 witness: with i = 1, a previous trace entry 0 and thresh chosen equal
to the resulting increment, the stopping branch is taken; the conjuncts with
false antecedents hold vacuously. -/
theorem stopping_rule_exact_equality_witness :
    (1 ≤ 1 ∧ lastTwoDelta ([0] ++ [logLikeOf P0 (ctxOf C5s) (1/2) (1/8)
          (muOf (ctxOf C5s) 1 1) (sqdErrOf (ctxOf C5s) 1 1)]) = (ctxOf C5s).thresh →
        evidence_iter P0 (ctxOf C5s) "fixed-point" 1 (0 + 1) 1 1 [0] false []
          = .ok ⟨1/2, 1/8, [0] ++ [logLikeOf P0 (ctxOf C5s) (1/2) (1/8)
              (muOf (ctxOf C5s) 1 1) (sqdErrOf (ctxOf C5s) 1 1)], false, []⟩) ∧
    (¬ (1 ≤ 1 ∧ lastTwoDelta ([0] ++ [logLikeOf P0 (ctxOf C5s) (1/2) (1/8)
          (muOf (ctxOf C5s) 1 1) (sqdErrOf (ctxOf C5s) 1 1)]) = (ctxOf C5s).thresh) →
        evidence_iter P0 (ctxOf C5s) "fixed-point" 1 (0 + 1) 1 1 [0] false []
          = evidence_iter P0 (ctxOf C5s) "fixed-point" (1 + 1) 0 (1/2) (1/8)
              ([0] ++ [logLikeOf P0 (ctxOf C5s) (1/2) (1/8)
                (muOf (ctxOf C5s) 1 1) (sqdErrOf (ctxOf C5s) 1 1)]) false []) ∧
    (|lastTwoDelta ([0] ++ [logLikeOf P0 (ctxOf C5s) (1/2) (1/8)
          (muOf (ctxOf C5s) 1 1) (sqdErrOf (ctxOf C5s) 1 1)])| < (ctxOf C5s).thresh →
        evidence_iter P0 (ctxOf C5s) "fixed-point" 1 (0 + 1) 1 1 [0] false []
          = evidence_iter P0 (ctxOf C5s) "fixed-point" (1 + 1) 0 (1/2) (1/8)
              ([0] ++ [logLikeOf P0 (ctxOf C5s) (1/2) (1/8)
                (muOf (ctxOf C5s) 1 1) (sqdErrOf (ctxOf C5s) 1 1)]) false []) :=
  stopping_rule_exact_equality P0 (ctxOf C5s) "fixed-point" 1 0 1 1 (1/2) (1/8)
    [0] false []
    (by norm_num [sqdErrOf, errVecOf, muOf, svdPosteriorMean, ctxOf, C5s, C9s,
      Matrix.mulVec, Matrix.dotProduct, Fin.sum_univ_one])
    (by norm_num [updateOf, sqdErrOf, errVecOf, muOf, svdPosteriorMean, ctxOf,
      C5s, C9s, Matrix.mulVec, Matrix.dotProduct, Fin.sum_univ_one])

/-- C3: an unrecognized method string makes fit raise the ValueError and
leaves the whole instance state, in particular alpha and beta, at its
pre-call value, whenever the loop body actually reaches the method dispatch
(at least one iteration and the perfect-fit guard does not fire; claim C4
covers the complement). -/
theorem invalid_method_raises_and_preserves_state {n m k : ℕ} (P : NumPrims)
    (s : BRState n m k) (method : String) (max_iter : ℕ)
    (hm1 : method ≠ "fixed-point") (hm2 : method ≠ "EM")
    (hfuel : 1 ≤ max_iter)
    (hguard : ¬ sqdErrOf (ctxOf s) s.alpha s.beta / (n : ℚ) < s.lambda_0) :
    fit P s method max_iter = .error (invalidMethodMsg, s, []) := by
  obtain ⟨f, rfl⟩ : ∃ f, max_iter = f + 1 := ⟨max_iter - 1, by omega⟩
  have hguardc : ¬ sqdErrOf (ctxOf s) s.alpha s.beta / (n : ℚ) < (ctxOf s).lambda_0 :=
    hguard
  unfold fit evidence_approx
  rw [evidence_iter]
  simp only [hguardc, if_false, reduceIte, updateOf, hm1, hm2]

/-- C3 witness: method "bogus" on an instance whose floor is zero (so the
guard cannot fire) with one available iteration. -/
theorem invalid_method_raises_and_preserves_state_witness :
    fit P0 C3s "bogus" 1 = .error (invalidMethodMsg, C3s, []) :=
  invalid_method_raises_and_preserves_state P0 C3s "bogus" 1 (by decide)
    (by decide) (by decide)
    (by norm_num [sqdErrOf, errVecOf, muOf, svdPosteriorMean, ctxOf, C3s, C9s,
      Matrix.mulVec, Matrix.dotProduct, Fin.sum_univ_one])

/-- C4: with a zero iteration budget, or when the perfect-fit guard fires on
the first iteration, fit completes without error for ANY method string,
performs no hyperparameter update (alpha, beta unchanged), appends nothing to
the log-evidence trace, and still computes the posterior mean, precision and
covariance from the current alpha and beta. -/
theorem fit_without_update_completes {n m k : ℕ} (P : NumPrims)
    (s : BRState n m k) (method : String) (max_iter : ℕ)
    (h : max_iter = 0 ∨ (1 ≤ max_iter ∧
      sqdErrOf (ctxOf s) s.alpha s.beta / (n : ℚ) < s.lambda_0)) :
    fit P s method max_iter
      = .ok ({ s with
                perfect_fit := if 1 ≤ max_iter then true else s.perfect_fit,
                w_mu := some (posterior_params s s.alpha s.beta).1,
                w_precision := some (posterior_params s s.alpha s.beta).2.1,
                diag := some (posterior_params s s.alpha s.beta).2.2,
                D := some (P.pinvh m (posterior_params s s.alpha s.beta).2.1) },
             if 1 ≤ max_iter then [perfectFitWarning] else []) := by
  rcases h with h0 | ⟨hge, hguard⟩
  · subst h0
    unfold fit evidence_approx
    rw [evidence_iter]
    simp
  · obtain ⟨f, rfl⟩ : ∃ f, max_iter = f + 1 := ⟨max_iter - 1, by omega⟩
    have hguardc : sqdErrOf (ctxOf s) s.alpha s.beta / (n : ℚ) < (ctxOf s).lambda_0 :=
      hguard
    unfold fit evidence_approx
    rw [evidence_iter]
    simp only [hguardc, if_true, reduceIte, List.nil_append]
    simp [show 1 ≤ f + 1 by omega]
    exact ⟨rfl, rfl, rfl, rfl⟩

/-- C4 witness: the zero-budget case on a concrete instance. -/
theorem fit_without_update_completes_witness :
    fit P0 C9s "bogus" 0
      = .ok ({ C9s with
                perfect_fit := if 1 ≤ 0 then true else C9s.perfect_fit,
                w_mu := some (posterior_params C9s C9s.alpha C9s.beta).1,
                w_precision := some (posterior_params C9s C9s.alpha C9s.beta).2.1,
                diag := some (posterior_params C9s C9s.alpha C9s.beta).2.2,
                D := some (P0.pinvh 1 (posterior_params C9s C9s.alpha C9s.beta).2.1) },
             if 1 ≤ 0 then [perfectFitWarning] else []) :=
  fit_without_update_completes P0 C9s "bogus" 0 (Or.inl rfl)

/-- C10: a successful fit leaves the centered design matrix, centered
response, SVD factors, centering means, bias term and configuration scalars
exactly as before the call (it mutates only alpha, beta, the log-evidence
trace, the perfect-fit flag and the posterior fields); predict and
predict_dist are pure functions of the state by construction and the SVD is
never recomputed (the factors are only ever read). -/
theorem fit_preserves_data_and_svd {n m k : ℕ} (P : NumPrims)
    (s : BRState n m k) (method : String) (max_iter : ℕ)
    (s1 : BRState n m k) (ws : List String)
    (h : fit P s method max_iter = .ok (s1, ws)) :
    s1.X = s.X ∧ s1.Y = s.Y ∧ s1.u = s.u ∧ s1.d = s.d ∧ s1.v = s.v ∧
    s1.mu_X = s.mu_X ∧ s1.mu_Y = s.mu_Y ∧ s1.bias_term = s.bias_term ∧
    s1.thresh = s.thresh ∧ s1.lambda_0 = s.lambda_0 := by
  unfold fit evidence_approx at h
  rcases hE : evidence_iter P (ctxOf s) method 0 max_iter s.alpha s.beta
      s.logLike s.perfect_fit [] with e | o
  · rw [hE] at h
    cases h
  · rw [hE] at h
    simp only [Except.ok.injEq, Prod.mk.injEq] at h
    obtain ⟨h1, -⟩ := h
    subst h1
    exact ⟨rfl, rfl, rfl, rfl, rfl, rfl, rfl, rfl, rfl, rfl⟩

/-- C10 witness: a concrete successful zero-budget fit. -/
theorem fit_preserves_data_and_svd_witness :
    C10s1.X = C9s.X ∧ C10s1.Y = C9s.Y ∧ C10s1.u = C9s.u ∧ C10s1.d = C9s.d ∧
    C10s1.v = C9s.v ∧ C10s1.mu_X = C9s.mu_X ∧ C10s1.mu_Y = C9s.mu_Y ∧
    C10s1.bias_term = C9s.bias_term ∧ C10s1.thresh = C9s.thresh ∧
    C10s1.lambda_0 = C9s.lambda_0 :=
  fit_preserves_data_and_svd P0 C9s "fixed-point" 0 C10s1 [] rfl

/-- A dot product of a rational vector with itself is nonnegative. -/
theorem dot_self_nonneg {p : ℕ} (v : Fin p → ℚ) : 0 ≤ dotProduct v v :=
  Finset.sum_nonneg fun i _ => mul_self_nonneg (v i)

/-- The regularized normal-equations matrix beta.XᵀX + alpha.I with positive
alpha and beta annihilates only the zero vector. -/
theorem regularized_matrix_inj {n m : ℕ} (X : Matrix (Fin n) (Fin m) ℚ)
    (alpha beta : ℚ) (ha : 0 < alpha) (hb : 0 < beta) (z : Fin m → ℚ)
    (hz : (beta • (X.transpose * X)
        + alpha • (1 : Matrix (Fin m) (Fin m) ℚ)).mulVec z = 0) :
    z = 0 := by
  have hexp : dotProduct z ((beta • (X.transpose * X)
      + alpha • (1 : Matrix (Fin m) (Fin m) ℚ)).mulVec z)
      = beta * dotProduct (X.mulVec z) (X.mulVec z) + alpha * dotProduct z z := by
    rw [add_mulVec, smul_mulVec_assoc, smul_mulVec_assoc, one_mulVec,
      dotProduct_add, dotProduct_smul, dotProduct_smul, smul_eq_mul,
      smul_eq_mul, ← mulVec_mulVec, dotProduct_mulVec, vecMul_transpose]
  rw [hz, dotProduct_zero] at hexp
  have h1 := dot_self_nonneg (X.mulVec z)
  have h2 := dot_self_nonneg z
  have hzz : dotProduct z z = 0 := by nlinarith
  exact dotProduct_self_eq_zero.mp hzz

/-- Applying the regularized normal-equations matrix to the SVD closed-form
mean yields beta.XᵀY, for any exact factorization X = U.diag(d).V with
UᵀU = I and VVᵀ = I and positive alpha, beta. -/
theorem svd_key {n m k : ℕ} (U : Matrix (Fin n) (Fin k) ℚ) (d : Fin k → ℚ)
    (V : Matrix (Fin k) (Fin m) ℚ) (Y : Fin n → ℚ) (alpha beta : ℚ)
    (ha : 0 < alpha) (hb : 0 < beta)
    (hU : U.transpose * U = 1) (hV : V * V.transpose = 1) :
    (beta • ((U * Matrix.diagonal d * V).transpose
          * (U * Matrix.diagonal d * V))
        + alpha • (1 : Matrix (Fin m) (Fin m) ℚ)).mulVec
        (svdPosteriorMean U d V Y alpha beta)
      = beta • (U * Matrix.diagonal d * V).transpose.mulVec Y := by
  have hb0 : beta ≠ 0 := ne_of_gt hb
  have hden : ∀ j, d j ^ 2 + alpha / beta ≠ 0 := fun j =>
    ne_of_gt (add_pos_of_nonneg_of_pos (sq_nonneg _) (div_pos ha hb))
  have hUc : ∀ {p : ℕ} (B : Matrix (Fin k) (Fin p) ℚ),
      U.transpose * (U * B) = B := fun B => by
    rw [← Matrix.mul_assoc, hU, Matrix.one_mul]
  have hVc : ∀ {p : ℕ} (B : Matrix (Fin k) (Fin p) ℚ),
      V * (V.transpose * B) = B := fun B => by
    rw [← Matrix.mul_assoc, hV, Matrix.one_mul]
  have hs : beta • (Matrix.diagonal d * (Matrix.diagonal d
          * (Matrix.diagonal (fun j => d j / (d j ^ 2 + alpha / beta))
            * U.transpose)))
        + alpha • (Matrix.diagonal (fun j => d j / (d j ^ 2 + alpha / beta))
          * U.transpose)
      = beta • (Matrix.diagonal d * U.transpose) := by
    ext j i
    have h1 := hden j
    simp only [Matrix.add_apply, Matrix.smul_apply, Matrix.diagonal_mul,
      smul_eq_mul]
    field_simp
    ring
  have hmat : (beta • ((U * Matrix.diagonal d * V).transpose
          * (U * Matrix.diagonal d * V))
        + alpha • (1 : Matrix (Fin m) (Fin m) ℚ))
        * (V.transpose
          * Matrix.diagonal (fun j => d j / (d j ^ 2 + alpha / beta))
          * U.transpose)
      = beta • (U * Matrix.diagonal d * V).transpose := by
    rw [Matrix.transpose_mul, Matrix.transpose_mul, Matrix.diagonal_transpose,
      Matrix.add_mul, Matrix.smul_mul, Matrix.smul_mul, Matrix.one_mul]
    simp only [Matrix.mul_assoc]
    rw [hUc, hVc]
    calc beta • (V.transpose * (Matrix.diagonal d * (Matrix.diagonal d
            * (Matrix.diagonal (fun j => d j / (d j ^ 2 + alpha / beta))
              * U.transpose))))
          + alpha • (V.transpose
            * (Matrix.diagonal (fun j => d j / (d j ^ 2 + alpha / beta))
              * U.transpose))
        = V.transpose * (beta • (Matrix.diagonal d * (Matrix.diagonal d
            * (Matrix.diagonal (fun j => d j / (d j ^ 2 + alpha / beta))
              * U.transpose)))
          + alpha • (Matrix.diagonal (fun j => d j / (d j ^ 2 + alpha / beta))
            * U.transpose)) := by
          rw [Matrix.mul_add, Matrix.mul_smul, Matrix.mul_smul]
      _ = V.transpose * (beta • (Matrix.diagonal d * U.transpose)) := by
          rw [hs]
      _ = beta • (V.transpose * (Matrix.diagonal d * U.transpose)) := by
          rw [Matrix.mul_smul]
  unfold svdPosteriorMean
  rw [mulVec_mulVec, mulVec_mulVec, Matrix.mul_assoc, hmat, smul_mulVec_assoc]

/-- C7: for an exact economy SVD X = U.diag(d).V (with UᵀU = I, VVᵀ = I) of
the centered design matrix and any positive alpha and beta, a vector w solves
the regularized normal equations (beta.XᵀX + alpha.I).w = beta.Xᵀ.Y exactly
when it is the SVD-based closed-form posterior mean used by the source. -/
theorem svd_mean_solves_normal_equations {n m k : ℕ}
    (X : Matrix (Fin n) (Fin m) ℚ) (U : Matrix (Fin n) (Fin k) ℚ)
    (d : Fin k → ℚ) (V : Matrix (Fin k) (Fin m) ℚ) (Y : Fin n → ℚ)
    (alpha beta : ℚ) (w : Fin m → ℚ) (ha : 0 < alpha) (hb : 0 < beta)
    (hX : X = U * Matrix.diagonal d * V)
    (hU : U.transpose * U = 1) (hV : V * V.transpose = 1) :
    (beta • (X.transpose * X)
        + alpha • (1 : Matrix (Fin m) (Fin m) ℚ)).mulVec w
        = beta • X.transpose.mulVec Y
      ↔ w = svdPosteriorMean U d V Y alpha beta := by
  subst hX
  constructor
  · intro hw
    have hsat := svd_key U d V Y alpha beta ha hb hU hV
    have hz : (beta • ((U * Matrix.diagonal d * V).transpose
          * (U * Matrix.diagonal d * V))
        + alpha • (1 : Matrix (Fin m) (Fin m) ℚ)).mulVec
          (w - svdPosteriorMean U d V Y alpha beta) = 0 := by
      rw [mulVec_sub, hw, hsat, sub_self]
    exact sub_eq_zero.mp (regularized_matrix_inj _ alpha beta ha hb _ hz)
  · rintro rfl
    exact svd_key U d V Y alpha beta ha hb hU hV

/-- C7 witness: the one-dimensional factorization X = 1.diag(1).1 with
alpha = beta = 1, where the closed form gives weight 1/2. -/
theorem svd_mean_solves_normal_equations_witness :
    ((1 : ℚ) • ((!![1] : Matrix (Fin 1) (Fin 1) ℚ).transpose * !![1])
        + (1 : ℚ) • (1 : Matrix (Fin 1) (Fin 1) ℚ)).mulVec (fun _ => 1/2)
        = (1 : ℚ) • (!![1] : Matrix (Fin 1) (Fin 1) ℚ).transpose.mulVec ![1]
      ↔ (fun _ => (1/2 : ℚ)) = svdPosteriorMean !![1] (fun _ => 1) !![1] ![1] 1 1 :=
  svd_mean_solves_normal_equations !![1] !![1] (fun _ => 1) !![1] ![1] 1 1
    (fun _ => 1/2) (by norm_num) (by norm_num)
    (by ext i j; fin_cases i; fin_cases j
        simp [Matrix.mul_apply, Matrix.diagonal, Matrix.one_apply,
          Matrix.vecHead, Fin.sum_univ_one])
    (by ext i j; fin_cases i; fin_cases j
        simp [Matrix.mul_apply, Matrix.one_apply, Matrix.vecHead,
          Fin.sum_univ_one])
    (by ext i j; fin_cases i; fin_cases j
        simp [Matrix.mul_apply, Matrix.one_apply, Matrix.vecHead,
          Fin.sum_univ_one])

end BayesianRegression
